import Mathlib

/-
Verification development for the register-map compiler (flatten.py).

The Python source is embedded shallowly:
  * pure helper functions become Lean functions;
  * functions that can raise a ValueError or TypeError return
    `Except String` values (the string is the message);
  * functions whose execution can additionally diverge (the while loops of
    checkMask never terminate on a zero mask) live in the monad
    M := ExceptT String Option, where the `none` of the underlying Option
    marks non-termination; a fuel-indexed transcription of the loops is
    provided as well and proved to agree with the structural definitions;
  * the global set ALREADY_DECLARED is threaded explicitly through
    nodeStruct as a list of struct names (only membership and insertion
    are used, matching the Python set API);
  * schema nodes are a tree of (tag, attributes, children); text content
    is absent from the schemas handled here, so serialization produces
    attribute-only markup; machine integers stay Nat, with explicit
    reductions mod 2^32 where the emitted C++ does uint32 arithmetic.
-/

set_option maxRecDepth 100000

/-- The effect monad of the embedding: exceptions (Python ValueError /
TypeError messages) over possible divergence (`none`). -/
abbrev M (α : Type) := ExceptT String Option α

/-- Lift a pure, exception-only computation into M. -/
def liftE {α : Type} (e : Except String α) : M α := ExceptT.mk (some e)

/-- The diverging computation (a while loop that never exits). -/
def diverge {α : Type} : M α := ExceptT.mk none

/-- Python hex(): "0x" followed by lowercase hexadecimal digits. -/
def pyHex (n : Nat) : String := "0x" ++ String.mk (Nat.toDigits 16 n)

/-- Python str.strip() restricted to the ASCII whitespace appearing in the
schemas (space, tab, newline, carriage return). -/
def pyStrip (s : String) : String :=
  String.mk (((s.data.dropWhile Char.isWhitespace).reverse.dropWhile Char.isWhitespace).reverse)

/-- Python membership test of one character in a string. -/
def strHasChar (s : String) (c : Char) : Bool := s.data.contains c

/-- str.startswith on ASCII data. -/
def strStartsWith (s pre : String) : Bool := pre.data.isPrefixOf s.data

/-- Drop the first n characters of a string. -/
def strDrop (s : String) (n : Nat) : String := String.mk (s.data.drop n)

/-- Take the first n characters of a string. -/
def strTake (s : String) (n : Nat) : String := String.mk (s.data.take n)

/-- str.join / the separator placement of the emission loops. -/
def strIntercalate (sep : String) : List String → String
  | [] => ""
  | s :: rest => rest.foldl (fun a x => a ++ sep ++ x) s

/-- Python str.isidentifier() restricted to ASCII: a nonempty string whose
first character is a letter or underscore and whose remaining characters
are letters, digits or underscores. -/
def pyIsIdent (s : String) : Bool :=
  match s.data with
  | [] => false
  | c :: rest => (c.isAlpha || c == '_') && rest.all (fun d => d.isAlphanum || d == '_')

/-- Value of one digit character in the given base (supports 0-9, a-z, A-Z
as Python int() does). -/
def digitVal (base : Nat) (c : Char) : Option Nat :=
  let v : Option Nat :=
    if c.isDigit then some (c.toNat - 48)
    else if 97 ≤ c.toNat && c.toNat ≤ 122 then some (c.toNat - 87)
    else if 65 ≤ c.toNat && c.toNat ≤ 90 then some (c.toNat - 55)
    else none
  match v with
  | some d => if d < base then some d else none
  | none => none

/-- Parse a nonempty digit string in the given base; none on any bad digit
(models the ValueError of Python int(s, base) for the schemas' literals). -/
def parseDigits (base : Nat) : List Char → Option Nat
  | [] => none
  | cs => cs.foldlM (fun acc c => (digitVal base c).map (fun d => acc * base + d)) 0

/-- Python parseInt() applied to an attribute string: 0x... is base 16,
0b... is base 2, otherwise base 10. -/
def pyParseIntStr (s : String) : Option Nat :=
  if strStartsWith s "0x" then parseDigits 16 (strDrop s 2).data
  else if strStartsWith s "0b" then parseDigits 2 (strDrop s 2).data
  else parseDigits 10 s.data

/-- int(s) / int(s, base) on a present attribute string. -/
def parseIntSome (str : String) : Except String Nat :=
  match pyParseIntStr str with
  | some v => Except.ok v
  | none => Except.error ("invalid literal for int(): " ++ str)

/-- parseInt from the source: None maps to None; a malformed literal raises. -/
def parseInt (s : Option String) : Except String (Option Nat) :=
  match s with
  | none => Except.ok none
  | some str => (parseIntSome str).map some

/-- A schema node: tag, attribute list (keys unique, in document order) and
ordered children. xml.etree elements carry text/tail as well, but the
schemas compiled here have attribute-only elements. -/
inductive Node where
  | mk (tag : String) (attrs : List (String × String)) (children : List Node)

def Node.tag : Node → String
  | .mk t _ _ => t

def Node.attrs : Node → List (String × String)
  | .mk _ a _ => a

def Node.children : Node → List Node
  | .mk _ _ c => c

/-- node.get(key): first attribute with the given key. -/
def Node.get (n : Node) (key : String) : Option String :=
  (n.attrs.find? (fun p => p.1 == key)).map (fun p => p.2)

/-- node.get(key, default). -/
def Node.getD (n : Node) (key dflt : String) : String :=
  (n.get key).getD dflt

/-- Serialize one attribute as xml.etree does (values here need no escaping). -/
def attrText (p : String × String) : String :=
  " " ++ p.1 ++ "=\"" ++ p.2 ++ "\""

mutual
/-- xml.tostring(node) with default encoding: attribute-only elements,
self-closing form for childless elements. -/
def tostring : Node → String
  | .mk tag attrs children =>
    let a := (attrs.map attrText).foldl (fun x y => x ++ y) ""
    match children with
    | [] => "<" ++ tag ++ a ++ " />"
    | cs => "<" ++ tag ++ a ++ ">" ++ tostringList cs ++ "</" ++ tag ++ ">"

def tostringList : List Node → String
  | [] => ""
  | c :: rest => tostring c ++ tostringList rest
end

/- ---------------------------------------------------------------------
MD5, as used by hashlib.md5(...).hexdigest(). Operates on the byte list of
an ASCII string. All words are Nat kept below 2^32.
--------------------------------------------------------------------- -/

def u32 (n : Nat) : Nat := n % 4294967296

def u32not (x : Nat) : Nat := 4294967295 ^^^ x

def rotl32 (x s : Nat) : Nat := u32 (x <<< s) ||| (x >>> (32 - s))

def md5K : List Nat :=
  [0xd76aa478, 0xe8c7b756, 0x242070db, 0xc1bdceee,
   0xf57c0faf, 0x4787c62a, 0xa8304613, 0xfd469501,
   0x698098d8, 0x8b44f7af, 0xffff5bb1, 0x895cd7be,
   0x6b901122, 0xfd987193, 0xa679438e, 0x49b40821,
   0xf61e2562, 0xc040b340, 0x265e5a51, 0xe9b6c7aa,
   0xd62f105d, 0x02441453, 0xd8a1e681, 0xe7d3fbc8,
   0x21e1cde6, 0xc33707d6, 0xf4d50d87, 0x455a14ed,
   0xa9e3e905, 0xfcefa3f8, 0x676f02d9, 0x8d2a4c8a,
   0xfffa3942, 0x8771f681, 0x6d9d6122, 0xfde5380c,
   0xa4beea44, 0x4bdecfa9, 0xf6bb4b60, 0xbebfbc70,
   0x289b7ec6, 0xeaa127fa, 0xd4ef3085, 0x04881d05,
   0xd9d4d039, 0xe6db99e5, 0x1fa27cf8, 0xc4ac5665,
   0xf4292244, 0x432aff97, 0xab9423a7, 0xfc93a039,
   0x655b59c3, 0x8f0ccc92, 0xffeff47d, 0x85845dd1,
   0x6fa87e4f, 0xfe2ce6e0, 0xa3014314, 0x4e0811a1,
   0xf7537e82, 0xbd3af235, 0x2ad7d2bb, 0xeb86d391]

def md5S : List Nat :=
  [7, 12, 17, 22, 7, 12, 17, 22, 7, 12, 17, 22, 7, 12, 17, 22,
   5, 9, 14, 20, 5, 9, 14, 20, 5, 9, 14, 20, 5, 9, 14, 20,
   4, 11, 16, 23, 4, 11, 16, 23, 4, 11, 16, 23, 4, 11, 16, 23,
   6, 10, 15, 21, 6, 10, 15, 21, 6, 10, 15, 21, 6, 10, 15, 21]

/-- Little-endian bytes of n, w bytes wide. -/
def leBytes (w n : Nat) : List Nat :=
  match w with
  | 0 => []
  | v + 1 => (n % 256) :: leBytes v (n / 256)

/-- The sixteen little-endian 32-bit words of one 64-byte chunk. -/
def chunkWords (bytes : List Nat) : List Nat :=
  (List.range 16).map (fun j =>
    let b := bytes.drop (4 * j)
    b.getD 0 0 + 256 * b.getD 1 0 + 65536 * b.getD 2 0 + 16777216 * b.getD 3 0)

/-- One MD5 round step. -/
def md5Step (m : List Nat) (st : Nat × Nat × Nat × Nat) (i : Nat) : Nat × Nat × Nat × Nat :=
  let (a, b, c, d) := st
  let (f, g) :=
    if i < 16 then ((b &&& c) ||| (u32not b &&& d), i)
    else if i < 32 then ((d &&& b) ||| (u32not d &&& c), (5 * i + 1) % 16)
    else if i < 48 then (b ^^^ c ^^^ d, (3 * i + 5) % 16)
    else (c ^^^ (b ||| u32not d), (7 * i) % 16)
  let f := u32 (f + a + md5K.getD i 0 + m.getD g 0)
  (d, u32 (b + rotl32 f (md5S.getD i 0)), b, c)

/-- Process one 64-byte chunk. -/
def md5Chunk (st : Nat × Nat × Nat × Nat) (bytes : List Nat) : Nat × Nat × Nat × Nat :=
  let m := chunkWords bytes
  let (a, b, c, d) := (List.range 64).foldl (md5Step m) st
  let (a0, b0, c0, d0) := st
  (u32 (a0 + a), u32 (b0 + b), u32 (c0 + c), u32 (d0 + d))

def md5Chunks (st : Nat × Nat × Nat × Nat) (bytes : List Nat) : Nat × Nat × Nat × Nat :=
  if bytes.length ≤ 64 then md5Chunk st (bytes.take 64)
  else md5Chunks (md5Chunk st (bytes.take 64)) (bytes.drop 64)
termination_by bytes.length
decreasing_by simp only [List.length_drop]; omega

/-- MD5 padding: 0x80, zeros to 56 mod 64, then the bit length as 8
little-endian bytes. -/
def md5Pad (msg : List Nat) : List Nat :=
  let len := msg.length
  let zeros := (56 + 64 - (len + 1) % 64) % 64
  msg ++ [0x80] ++ List.replicate zeros 0 ++ leBytes 8 ((8 * len) % 18446744073709551616)

def hexByte (b : Nat) : List Char :=
  [Nat.digitChar (b / 16), Nat.digitChar (b % 16)]

/-- hashlib.md5(bytes-of-s).hexdigest(): 32 lowercase hex characters over
the little-endian bytes of the four state words. -/
def md5hex (s : String) : String :=
  let msg := s.data.map Char.toNat
  let (a, b, c, d) := md5Chunks (0x67452301, 0xefcdab89, 0x98badcfe, 0x10325476) (md5Pad msg)
  let bytes := leBytes 4 a ++ leBytes 4 b ++ leBytes 4 c ++ leBytes 4 d
  String.mk (bytes.foldr (fun byte acc => hexByte byte ++ acc) [])

/-- str.format of a possибly-missing attribute: Python renders None as "None". -/
def fmtOpt (o : Option String) : String := o.getD "None"

/-- The re.sub pattern body for a replication index variable v: the literal
characters dollar, open brace, v, close brace. -/
def idxPattern (v : String) : String := "$\x7b" ++ v ++ "\x7d"

/-- re.sub(underscore? ++ pattern, empty, s): leftmost-first scan, the
optional underscore matched greedily, every occurrence removed. -/
def removeIdx (pat : List Char) : List Char → List Char
  | [] => []
  | c :: rest =>
    if c == '_' && pat.isPrefixOf rest then removeIdx pat (rest.drop pat.length)
    else if pat.isPrefixOf (c :: rest) then removeIdx pat (rest.drop (pat.length - 1))
    else c :: removeIdx pat rest
termination_by l => l.length
decreasing_by
  all_goals simp only [List.length_drop, List.length_cons]
  all_goals omega

/-- The tail of nodeName: prepend reg_ when the computed name is not an
identifier, and raise (citing the raw id attribute) when it is still not
an identifier. -/
def nodeNameFrom (node : Node) (name0 : String) : Except String String :=
  let name := if pyIsIdent name0 then name0 else "reg_" ++ name0
  if pyIsIdent name then pure name
  else Except.error ("Could not convert node id \"" ++ fmtOpt (node.get "id") ++ "\" to a valid C++ identifier")

/-- nodeName from the source: strip the replication placeholder (with an
optional preceding underscore) for replicated nodes, trim whitespace,
prepend reg_ when the result is not an identifier, and raise when it is
still not an identifier. -/
def nodeName (node : Node) : Except String String :=
  match node.get "generate" with
  | none =>
    match node.get "id" with
    | some i => nodeNameFrom node (pyStrip i)
    | none => Except.error "AttributeError: NoneType object has no attribute strip"
  | some _ =>
    match node.get "id", node.get "generate_idx_var" with
    | some i, some v => nodeNameFrom node (pyStrip (String.mk (removeIdx (idxPattern v).data i.data)))
    | _, _ => Except.error "TypeError: expected str attributes id and generate_idx_var"

/-- nodeStructName: the node name with the first 4 hex digits of the MD5 of
the serialized node appended. -/
def nodeStructName (node : Node) : Except String String := do
  let n ← nodeName node
  pure (n ++ "_" ++ strTake (md5hex (tostring node)) 4)

/-- nodeBaseType: struct reference for composites, an access type chosen by
the permission for leaves; a leaf without permissions raises. -/
def nodeBaseType (node : Node) : Except String String :=
  match node.children with
  | _ :: _ => do
    let sn ← nodeStructName node
    pure (sn ++ "<read_only_type, write_only_type, read_write_type>")
  | [] =>
    let perm := (node.get "permission").getD ""
    let read := strHasChar perm 'r'
    let write := strHasChar perm 'w'
    if read && write then pure "read_write_type"
    else if read then pure "read_only_type"
    else if write then pure "write_only_type"
    else Except.error ("Leaf node " ++ fmtOpt (node.get "id") ++ " has no permissions")

/-- nodeType: the base type, wrapped in std::array for replicated nodes
(the size is the raw generate_size attribute string). -/
def nodeType (node : Node) : Except String String := do
  let baseType ← nodeBaseType node
  match node.get "generate" with
  | none => pure baseType
  | some _ => pure ("std::array<" ++ baseType ++ ", " ++ fmtOpt (node.get "generate_size") ++ ">")

/-- nodeDecl: optional Doxygen comment plus the member declaration. The
three source branches (leaf, plain, replicated) build the same text. -/
def nodeDecl (node : Node) (baseAddress : Nat) : Except String String := do
  let doc :=
    match node.get "description" with
    | some d => "/** \\brief " ++ d ++ " */\n"
    | none => ""
  let t ← nodeType node
  let n ← nodeName node
  match node.children with
  | [] => pure (doc ++ t ++ " " ++ n ++ ";")
  | _ =>
    match node.get "generate" with
    | none => pure (doc ++ t ++ " " ++ n ++ ";")
    | some _ => pure (doc ++ t ++ " " ++ n ++ ";")

/-- Iteration-counting transcription of the first while loop of checkMask
(discard trailing zeros): one unit of fuel per iteration, none when the
fuel runs out before the loop exits. -/
def stripZerosFuel (fuel m : Nat) : Option Nat :=
  if m % 2 ≠ 0 then some m
  else
    match fuel with
    | 0 => none
    | f + 1 => stripZerosFuel f (m / 2)

/-- Iteration-counting transcription of the second while loop of checkMask
(discard the run of low one bits). -/
def stripOnesFuel (fuel m : Nat) : Option Nat :=
  if m % 2 ≠ 1 then some m
  else
    match fuel with
    | 0 => none
    | f + 1 => stripOnesFuel f (m / 2)

/-- Fuel-indexed checkMask: some outcome when both loops exit within the
fuel bound, none otherwise. -/
def checkMaskFuel (fuel mask : Nat) : Option (Except String Unit) :=
  (stripZerosFuel fuel mask).bind (fun m =>
    (stripOnesFuel fuel m).map (fun m2 =>
      if m2 ≠ 0 then Except.error ("Mask " ++ pyHex mask ++ " has holes") else Except.ok ()))

/-- The first while loop of checkMask. m iterations are always enough when
the loop exits at all (the loop strips at most log2 m trailing zero bits),
and on input 0 the loop never exits, which stripZerosFuel reports as none
at every fuel; both facts are proved below (stripZeros_eq_some_iff,
stripZeros_zero). -/
def stripZeros (m : Nat) : Option Nat := stripZerosFuel m m

/-- The second while loop of checkMask. This loop always exits; m
iterations are always enough (stripOnes_total below). -/
def stripOnes (m : Nat) : Option Nat := stripOnesFuel m m

/-- checkMask: succeed when, after discarding trailing zeros and then the
run of ones, nothing remains; raise otherwise. A none marks the
divergence of the first loop on a zero mask. -/
def checkMask (mask : Nat) : M Unit :=
  ExceptT.mk ((stripZeros mask).bind (fun m =>
    (stripOnes m).bind (fun m2 =>
      some (if m2 ≠ 0 then Except.error ("Mask " ++ pyHex mask ++ " has holes") else Except.ok ()))))

/-- nodeAddrInitializer: the member-initializer text for the address-based
constructor; validates the mask and the masked-write permission for leaves. -/
def nodeAddrInitializer (node : Node) : M String := do
  let a ← liftE (parseInt (node.get "address"))
  let address := pyHex (a.getD 0)
  match node.children with
  | [] => do
    let mask ← liftE (parseIntSome (node.getD "mask" "0xffffffff"))
    checkMask mask
    let perm := (node.get "permission").getD ""
    let read := strHasChar perm 'r'
    let write := strHasChar perm 'w'
    if mask != 0xffffffff && write && !read then do
      let n ← liftE (nodeName node)
      liftE (Except.error ("Register " ++ n ++ " cannot be mask-written because it cannot be read"))
    else if read then
      pure ("getAddress(base, " ++ address ++ "), " ++ pyHex mask)
    else
      pure ("getAddress(base, " ++ address ++ ")")
  | _ => pure ("base + " ++ address)

/-- nodeAddrConstructor: address-based initialization of one member. For a
replicated node the loop body re-renders the same initializer for every
index (generate_address_step is parsed but not used by the source). -/
def nodeAddrConstructor (node : Node) (baseAddress : Nat) : M String := do
  match node.get "generate" with
  | none => do
    let n ← liftE (nodeName node)
    let init ← nodeAddrInitializer node
    pure (n ++ "(" ++ init ++ ")")
  | some _ => do
    let generateSize ← liftE (parseInt (node.get "generate_size"))
    let _generateAddressStep ← liftE (parseInt (node.get "generate_address_step"))
    let n ← liftE (nodeName node)
    let gs ← match generateSize with
      | some g => pure g
      | none => liftE (Except.error "TypeError: range argument must be an integer, not NoneType")
    let body ← (List.range gs).foldlM
      (fun acc _ => do
        let bt ← liftE (nodeBaseType node)
        let init ← nodeAddrInitializer node
        pure (acc ++ bt ++ "(" ++ init ++ "),\n"))
      ""
    pure (n ++ "(\x7b\n" ++ body ++ "\x7d)\n")

/-- nodeGenInitializer: the initializer used by the generator-based
constructor. -/
def nodeGenInitializer (node : Node) (otherName : String) : String :=
  match node.children with
  | [] => "gen(" ++ otherName ++ ")"
  | _ => "gen, " ++ otherName

/-- nodeGenConstructor: generator-based initialization of one member. -/
def nodeGenConstructor (node : Node) : Except String String := do
  let name ← nodeName node
  let otherName := "other." ++ name
  match node.get "generate" with
  | none => pure (name ++ "(" ++ nodeGenInitializer node otherName ++ ")")
  | some _ => do
    let generateSize ← parseInt (node.get "generate_size")
    let gs ← match generateSize with
      | some g => pure g
      | none => Except.error "TypeError: range argument must be an integer, not NoneType"
    let body ← (List.range gs).foldlM
      (fun acc i => do
        let bt ← nodeBaseType node
        pure (acc ++ bt ++ "(" ++
          nodeGenInitializer node (otherName ++ "[" ++ toString i ++ "]") ++ "),\n"))
      ""
    pure (name ++ "(\x7b\n" ++ body ++ "\x7d)\n")

/-- The template header emitted at the start of every struct declaration
(the first triple-quoted fragment of nodeStruct, with the struct name
substituted for both placeholders). -/
def structHeaderText (structName : String) : String :=
  "\n    template<class ROType = read_only_type,\n             class WOType = write_only_type,\n             class RWType = read_write_type>\n    struct " ++ structName ++ " \x7b\n        using read_only_type = ROType;\n        using write_only_type = WOType;\n        using read_write_type = RWType;\n\n        template<class RO, class WO, class RW> using self_type = " ++ structName ++ "<RO, WO, RW>;\n        "

/-- The head of the address-based constructor: name and defaulted base
parameter (the default is the hex of the baseAddress argument). -/
def addrCtorHead (structName : String) (baseAddress : Nat) : String :=
  "\n        constexpr " ++ structName ++ "(std::uint32_t base = " ++ pyHex baseAddress ++ "):"

/-- The empty constructor body fragment. -/
def ctorBodyText : String := "\n    \x7b\x7d"

/-- The head of the generator-based constructor. -/
def genCtorHead (structName : String) : String :=
  "\n        template<\n            class Generator,\n            /* We take a generic type as a parameter instead of RO, WO, RW to\n             * allow for cv qualifiers. Otherwise we would need two constructors. */\n            class Other>\n        constexpr " ++ structName ++ "(Generator &gen, Other &other):"

/-- The member-initializer list: each item on its own indented line, a
comma after every item but the last (the i loop of the source). -/
def ctorItems (f : Node → M String) (children : List Node) : M String := do
  let parts ← children.mapM (fun c => do
    let s ← f c
    pure ("\n          " ++ s))
  pure (strIntercalate "," parts)

/-- The member-declaration loop of nodeStruct: appends each child
declaration and a newline to the accumulated text. -/
def declFold (baseAddress : Nat) (children : List Node) (acc : String) : M String :=
  children.foldlM
    (fun a c => do
      let d ← liftE (nodeDecl c baseAddress)
      pure (a ++ d ++ "\n"))
    acc

mutual
/-- Number of nodes in a tree (the termination measure of nodeStruct). -/
def nodeSize : Node → Nat
  | .mk _ _ children => 1 + nodesSize children

/-- Number of nodes in a forest. -/
def nodesSize : List Node → Nat
  | [] => 0
  | c :: rest => 1 + nodeSize c + nodesSize rest
end

theorem nodeSize_children (tag : String) (attrs : List (String × String)) (children : List Node) :
    nodesSize children < nodeSize (Node.mk tag attrs children) := by
  simp [nodeSize]

theorem nodesSize_head (c : Node) (rest : List Node) : nodeSize c < nodesSize (c :: rest) := by
  simp only [nodesSize]
  omega

theorem nodesSize_tail (c : Node) (rest : List Node) : nodesSize rest < nodesSize (c :: rest) := by
  simp only [nodesSize]
  omega

theorem nodeSize_children_any (node : Node) : nodesSize node.children < nodeSize node := by
  match node with
  | .mk tag attrs children => exact nodeSize_children tag attrs children

mutual
/-- nodeStruct: the struct declaration for a composite node, threading the
ALREADY_DECLARED set. Returns the emitted text (empty when the struct name
is already in the set) and the updated set. -/
def nodeStruct (node : Node) (baseAddress : Nat) (declared : List String) : M (String × List String) :=
  match node with
  | .mk tag attrs children =>
    if children.isEmpty then liftE (Except.error "Cannot create node struct for a value node")
    else do
      let structName ← liftE (nodeStructName (Node.mk tag attrs children))
      if declared.contains structName then pure ("", declared)
      else do
        let declared := declared ++ [structName]
        let (struct, declared) ← childStructs baseAddress children "" declared
        let struct := struct ++ structHeaderText structName
        let struct ← declFold baseAddress children struct
        let struct := struct ++ addrCtorHead structName baseAddress
        let addrItems ← ctorItems (fun c => nodeAddrConstructor c baseAddress) children
        let struct := struct ++ addrItems ++ ctorBodyText
        let struct := struct ++ genCtorHead structName
        let genItems ← ctorItems (fun c => liftE (nodeGenConstructor c)) children
        let struct := struct ++ genItems ++ ctorBodyText
        pure (struct ++ "\x7d", declared)
termination_by nodeSize node
decreasing_by
  simp only [nodeSize]
  omega

/-- The child-structs loop of nodeStruct: composite children are emitted
first (each followed by a semicolon and newline), in order. -/
def childStructs (baseAddress : Nat) (children : List Node) (acc : String) (declared : List String) : M (String × List String) :=
  match children with
  | [] => pure (acc, declared)
  | c :: rest =>
    match c.children with
    | [] => childStructs baseAddress rest acc declared
    | _ :: _ => do
      let (t, d2) ← nodeStruct c baseAddress declared
      childStructs baseAddress rest (acc ++ t ++ ";\n") d2
termination_by nodesSize children
decreasing_by
  all_goals simp only [nodesSize, nodeSize]
  all_goals omega
end

/-- getAddress from the emitted boilerplate: uint32 arithmetic, left shift
by two then the fixed origin constant (the second parameter is named
local in the C++ source). -/
def getAddress (base loc : Nat) : Nat :=
  u32 (u32 (u32 (base + loc) <<< 2) + 0x64000000)

/-- The two print statements of the driver after the fixed boilerplate:
the root struct declaration and the root instance at base 0x0. -/
def compileRoot (root : Node) : M String := do
  let (s, _) ← nodeStruct root 0x0 []
  let t ← liftE (nodeType root)
  let n ← liftE (nodeName root)
  pure (s ++ ";\n" ++ "const constexpr " ++ t ++ " " ++ n ++ "(0x0);\n")

/- ---------------------------------------------------------------------
Analysis helpers (projections and substring search used by the theorems;
not part of the source embedding).
--------------------------------------------------------------------- -/

/-- The emitted text of a successful nodeStruct run (empty otherwise). -/
def outputOf (m : M (String × List String)) : String :=
  match m.run with
  | some (Except.ok p) => p.1
  | _ => ""

/-- The final ALREADY_DECLARED contents of a successful nodeStruct run. -/
def declaredOf (m : M (String × List String)) : List String :=
  match m.run with
  | some (Except.ok p) => p.2
  | _ => []

/-- Boolean membership of pat as a contiguous sublist of l. -/
def listIsInfix (pat : List Char) : List Char → Bool
  | [] => pat.isEmpty
  | c :: t => pat.isPrefixOf (c :: t) || listIsInfix pat t

/-- Boolean substring search. -/
def strContains (s pat : String) : Bool := listIsInfix pat.data s.data

/- ---------------------------------------------------------------------
Concrete schema nodes used by the claim theorems.
--------------------------------------------------------------------- -/

/-- Replicated identifier that starts with a digit once the placeholder is
removed. -/
def exC7 : Node :=
  Node.mk "node" [("id", "3count_${i}"), ("generate", "true"), ("generate_idx_var", "i"), ("generate_size", "2"), ("generate_address_step", "0x1")] []

/-- An identifier that stays invalid even after the reg_ prefix. -/
def exBadId : Node := Node.mk "node" [("id", "+")] []

/-- An identifier with surrounding whitespace. -/
def exWsId : Node := Node.mk "node" [("id", " foo ")] []

/-- Replicated read-only leaf with a nonzero generate_address_step. -/
def exC1 : Node :=
  Node.mk "node" [("id", "r_${i}"), ("permission", "r"), ("address", "0x10"), ("generate", "true"), ("generate_idx_var", "i"), ("generate_size", "2"), ("generate_address_step", "0x100")] []

/-- A plain read-only leaf register. -/
def exLeafR : Node := Node.mk "node" [("id", "r"), ("permission", "r")] []

/-- Composite named blk with one read-only leaf child. -/
def exA : Node := Node.mk "node" [("id", "blk")] [exLeafR]

/-- Same children as exA, but the markup differs by a description
attribute (which does not appear anywhere in the emitted declarations of
the children, nor in the struct body of the node itself). -/
def exB : Node := Node.mk "node" [("id", "blk"), ("description", "x")] [exLeafR]

/-- A second construction of exA, written out in full. -/
def exATwin : Node :=
  Node.mk "node" [("id", "blk")] [Node.mk "node" [("id", "r"), ("permission", "r")] []]

/-- Root holding exA and exB: identical children declarations, different
markup. -/
def exRoot2 : Node := Node.mk "node" [("id", "top")] [exA, exB]

/-- Root holding the same composite twice (identical markup). -/
def exRootTwin : Node := Node.mk "node" [("id", "top2")] [exA, exA]

/-- Composite at relative address 0x100 holding one leaf. -/
def exBlk : Node := Node.mk "node" [("id", "blk"), ("address", "0x100")] [exLeafR]

/-- Root for the constructor-default claim. -/
def exRootC3 : Node := Node.mk "node" [("id", "top3")] [exBlk]

/-- Write-only leaf with a contiguous non-default mask. -/
def exC8w : Node :=
  Node.mk "node" [("id", "r"), ("permission", "w"), ("mask", "0xff"), ("address", "0x10")] []

/-- The same leaf with read-write permission. -/
def exC8rw : Node :=
  Node.mk "node" [("id", "r"), ("permission", "rw"), ("mask", "0xff"), ("address", "0x10")] []

/-- Write-only leaf with a non-contiguous non-default mask. -/
def exC8bad : Node :=
  Node.mk "node" [("id", "r"), ("permission", "w"), ("mask", "0b101"), ("address", "0x10")] []

/-- Write-only leaf with a different non-contiguous non-default mask. -/
def exC10 : Node :=
  Node.mk "node" [("id", "wreg"), ("permission", "w"), ("mask", "0b1011"), ("address", "0x4")] []

/-- Read-only leaf at relative address 0x10 used for the address claim. -/
def exC6 : Node := Node.mk "node" [("id", "r"), ("permission", "r"), ("address", "0x10")] []

/-- Read-only leaf with no address attribute. -/
def exC6none : Node := Node.mk "node" [("id", "r"), ("permission", "r")] []

/- ---------------------------------------------------------------------
General lemmas about the monad M and about list/string appending.
--------------------------------------------------------------------- -/

theorem M.pure_def {α : Type} (a : α) : (pure a : M α) = ExceptT.mk (some (Except.ok a)) := rfl

theorem M.liftE_ok_bind {α β : Type} (a : α) (f : α → M β) : (liftE (Except.ok a) >>= f) = f a := rfl

theorem M.liftE_error_bind {α β : Type} (e : String) (f : α → M β) :
    (liftE (Except.error e) >>= f) = liftE (Except.error e) := rfl

theorem M.diverge_bind {α β : Type} (f : α → M β) : ((diverge : M α) >>= f) = diverge := rfl

theorem M.pure_ne_error {α : Type} (a : α) (e : String) : (pure a : M α) ≠ liftE (Except.error e) := by
  intro h
  have h2 : some (Except.ok a) = some (Except.error e) := h
  simp at h2

theorem M.pure_ne_diverge {α : Type} (a : α) : (pure a : M α) ≠ (diverge : M α) := by
  intro h
  have h2 : some (Except.ok a) = (none : Option (Except String α)) := h
  simp at h2

theorem M.pure_inj {α : Type} (a b : α) (h : (pure a : M α) = pure b) : a = b := by
  have h2 : some (Except.ok a) = some (Except.ok b) := h
  simp at h2
  exact h2

/-- Inversion of a successful bind: the first computation succeeded and the
continuation succeeded on its result. -/
theorem M.bind_eq_pure {α β : Type} (x : M α) (f : α → M β) (b : β) :
    (x >>= f) = pure b ↔ ∃ a, x = pure a ∧ f a = pure b := by
  constructor
  · intro h
    match hx : x.run with
    | none =>
      exfalso
      have : (x >>= f).run = none := by
        simp only [Bind.bind, ExceptT.bind, ExceptT.run, ExceptT.mk] at *
        rw [show (x : Option (Except String α)) = none from hx]
        rfl
      rw [h] at this
      simp [M.pure_def, ExceptT.run, ExceptT.mk] at this
    | some (Except.error e) =>
      exfalso
      have : (x >>= f).run = some (Except.error e) := by
        simp only [Bind.bind, ExceptT.bind, ExceptT.run, ExceptT.mk] at *
        rw [show (x : Option (Except String α)) = some (Except.error e) from hx]
        rfl
      rw [h] at this
      simp [M.pure_def, ExceptT.run, ExceptT.mk] at this
    | some (Except.ok a) =>
      refine ⟨a, ?_, ?_⟩
      · show x = ExceptT.mk (some (Except.ok a))
        exact hx
      · have hx2 : x = ExceptT.mk (some (Except.ok a)) := hx
        rw [hx2] at h
        rw [show (ExceptT.mk (some (Except.ok a)) : M α) = liftE (Except.ok a) from rfl] at h
        rw [M.liftE_ok_bind] at h
        exact h
  · rintro ⟨a, hx, hf⟩
    rw [hx, show (pure a : M α) = liftE (Except.ok a) from rfl, M.liftE_ok_bind]
    exact hf

theorem listIsPrefixOf_append (p r : List Char) : p.isPrefixOf (p ++ r) = true := by
  induction p with
  | nil => simp [List.isPrefixOf]
  | cons c t ih => simp [List.isPrefixOf, ih]

theorem listIsInfix_of_isPrefixOf (pat l : List Char) (h : pat.isPrefixOf l = true) :
    listIsInfix pat l = true := by
  cases l with
  | nil =>
    cases pat with
    | nil => rfl
    | cons a b => simp [List.isPrefixOf] at h
  | cons c t =>
    simp only [listIsInfix]
    rw [h]
    simp

theorem listIsInfix_middle (x pat y : List Char) : listIsInfix pat (x ++ (pat ++ y)) = true := by
  induction x with
  | nil =>
    rw [List.nil_append]
    exact listIsInfix_of_isPrefixOf pat (pat ++ y) (listIsPrefixOf_append pat y)
  | cons c t ih =>
    rw [List.cons_append]
    have h1 : listIsInfix pat (c :: (t ++ (pat ++ y))) =
        (pat.isPrefixOf (c :: (t ++ (pat ++ y))) || listIsInfix pat (t ++ (pat ++ y))) := rfl
    rw [h1, ih]
    simp

/-- A string of the shape x ++ pat ++ y contains pat. -/
theorem strContains_middle (x pat y : String) : strContains (x ++ (pat ++ y)) pat = true := by
  simp only [strContains, String.data_append]
  exact listIsInfix_middle x.data pat.data y.data

/- ---------------------------------------------------------------------
Lemmas about the checkMask loops.
--------------------------------------------------------------------- -/

theorem stripZerosFuel_zero : ∀ fuel, stripZerosFuel fuel 0 = none := by
  intro fuel
  induction fuel with
  | zero => rfl
  | succ f ih => exact ih

theorem checkMaskFuel_zero : ∀ fuel, checkMaskFuel fuel 0 = none := by
  intro fuel
  simp [checkMaskFuel, stripZerosFuel_zero]

theorem stripZerosFuel_of_odd (fuel m : Nat) (h : m % 2 ≠ 0) : stripZerosFuel fuel m = some m := by
  cases fuel <;> simp [stripZerosFuel, h]

theorem stripOnesFuel_of_even (fuel m : Nat) (h : m % 2 ≠ 1) : stripOnesFuel fuel m = some m := by
  cases fuel <;> simp [stripOnesFuel, h]

theorem stripZerosFuel_inv : ∀ fuel m r, stripZerosFuel fuel m = some r →
    r % 2 = 1 ∧ ∃ a, m = 2 ^ a * r := by
  intro fuel
  induction fuel with
  | zero =>
    intro m r h
    by_cases h2 : m % 2 ≠ 0
    · simp [stripZerosFuel, h2] at h
      subst h
      exact ⟨by omega, 0, by simp⟩
    · simp [stripZerosFuel, h2] at h
  | succ f ih =>
    intro m r h
    by_cases h2 : m % 2 ≠ 0
    · simp [stripZerosFuel, h2] at h
      subst h
      exact ⟨by omega, 0, by simp⟩
    · simp only [stripZerosFuel, h2, if_false] at h
      obtain ⟨hr, a, ha⟩ := ih (m / 2) r h
      refine ⟨hr, a + 1, ?_⟩
      have hm : m = 2 * (m / 2) := by omega
      rw [hm, ha, pow_succ]
      ring

theorem stripZerosFuel_pow (a r : Nat) (hr : r % 2 = 1) :
    ∀ fuel, a ≤ fuel → stripZerosFuel fuel (2 ^ a * r) = some r := by
  induction a with
  | zero =>
    intro fuel _
    have h2 : r % 2 ≠ 0 := by omega
    rw [pow_zero, one_mul]
    exact stripZerosFuel_of_odd fuel r h2
  | succ a ih =>
    intro fuel hf
    obtain ⟨f, rfl⟩ : ∃ f, fuel = f + 1 := ⟨fuel - 1, by omega⟩
    have hsplit : 2 ^ (a + 1) * r = 2 * (2 ^ a * r) := by rw [pow_succ]; ring
    have heven : ¬((2 ^ (a + 1) * r) % 2 ≠ 0) := by
      rw [hsplit]
      simp [Nat.mul_mod_right]
    have hdiv : (2 ^ (a + 1) * r) / 2 = 2 ^ a * r := by
      rw [hsplit]
      exact Nat.mul_div_cancel_left _ (by norm_num)
    simp only [stripZerosFuel, heven, if_false, hdiv]
    exact ih f (by omega)

theorem odd_factorization : ∀ m, 0 < m → ∃ a r, r % 2 = 1 ∧ m = 2 ^ a * r := by
  intro m
  induction m using Nat.strong_induction_on with
  | _ m ih =>
    intro hm
    by_cases h2 : m % 2 = 1
    · exact ⟨0, m, h2, by simp⟩
    · have hpos : 0 < m / 2 := by omega
      have hlt : m / 2 < m := by omega
      obtain ⟨a, r, hr, he⟩ := ih (m / 2) hlt hpos
      refine ⟨a + 1, r, hr, ?_⟩
      have hm2 : m = 2 * (m / 2) := by omega
      rw [hm2, he, pow_succ]
      ring

theorem stripZeros_pow (a r : Nat) (hr : r % 2 = 1) : stripZeros (2 ^ a * r) = some r := by
  have hr1 : 1 ≤ r := by omega
  have h1 : a < 2 ^ a := Nat.lt_two_pow a
  have h2 : 2 ^ a ≤ 2 ^ a * r := Nat.le_mul_of_pos_right _ (by omega)
  exact stripZerosFuel_pow a r hr (2 ^ a * r) (by omega)

theorem stripZeros_of_pos (m : Nat) (hm : 0 < m) :
    ∃ a r, r % 2 = 1 ∧ m = 2 ^ a * r ∧ stripZeros m = some r := by
  obtain ⟨a, r, hr, he⟩ := odd_factorization m hm
  exact ⟨a, r, hr, he, by rw [he]; exact stripZeros_pow a r hr⟩

theorem stripZeros_zero : stripZeros 0 = none := stripZerosFuel_zero 0

theorem stripOnesFuel_total : ∀ m fuel, m ≤ fuel → ∃ r, stripOnesFuel fuel m = some r := by
  intro m
  induction m using Nat.strong_induction_on with
  | _ m ih =>
    intro fuel hf
    by_cases h2 : m % 2 ≠ 1
    · exact ⟨m, stripOnesFuel_of_even fuel m h2⟩
    · have h3 : m % 2 = 1 := by omega
      have hm1 : 1 ≤ m := by omega
      obtain ⟨f, rfl⟩ : ∃ f, fuel = f + 1 := ⟨fuel - 1, by omega⟩
      have hstep : stripOnesFuel (f + 1) m = stripOnesFuel f (m / 2) := by
        simp [stripOnesFuel, h3]
      rw [hstep]
      exact ih (m / 2) (by omega) f (by omega)

theorem stripOnesFuel_det : ∀ f1 f2 m r1 r2, stripOnesFuel f1 m = some r1 →
    stripOnesFuel f2 m = some r2 → r1 = r2 := by
  intro f1
  induction f1 with
  | zero =>
    intro f2 m r1 r2 h1 h2
    by_cases hm : m % 2 ≠ 1
    · rw [stripOnesFuel_of_even 0 m hm] at h1
      rw [stripOnesFuel_of_even f2 m hm] at h2
      have e1 := Option.some.inj h1
      have e2 := Option.some.inj h2
      omega
    · simp [stripOnesFuel, hm] at h1
  | succ f ih =>
    intro f2 m r1 r2 h1 h2
    by_cases hm : m % 2 ≠ 1
    · rw [stripOnesFuel_of_even (f + 1) m hm] at h1
      rw [stripOnesFuel_of_even f2 m hm] at h2
      have e1 := Option.some.inj h1
      have e2 := Option.some.inj h2
      omega
    · have h3 : m % 2 = 1 := by omega
      have hs1 : stripOnesFuel (f + 1) m = stripOnesFuel f (m / 2) := by
        simp [stripOnesFuel, h3]
      rw [hs1] at h1
      match f2 with
      | 0 => simp [stripOnesFuel, h3] at h2
      | g + 1 =>
        have hs2 : stripOnesFuel (g + 1) m = stripOnesFuel g (m / 2) := by
          simp [stripOnesFuel, h3]
        rw [hs2] at h2
        exact ih g (m / 2) r1 r2 h1 h2

theorem stripOnesFuel_allones : ∀ b fuel, b ≤ fuel → stripOnesFuel fuel (2 ^ b - 1) = some 0 := by
  intro b
  induction b with
  | zero =>
    intro fuel _
    have h0 : (2 ^ 0 - 1) % 2 ≠ 1 := by norm_num
    rw [stripOnesFuel_of_even fuel _ h0]
    norm_num
  | succ b ih =>
    intro fuel hf
    obtain ⟨f, rfl⟩ : ∃ f, fuel = f + 1 := ⟨fuel - 1, by omega⟩
    have h1 : 1 ≤ 2 ^ b := Nat.one_le_two_pow
    have he : 2 ^ (b + 1) = 2 * 2 ^ b := by rw [pow_succ]; ring
    have hodd : (2 ^ (b + 1) - 1) % 2 = 1 := by omega
    have hdiv : (2 ^ (b + 1) - 1) / 2 = 2 ^ b - 1 := by omega
    have hstep : stripOnesFuel (f + 1) (2 ^ (b + 1) - 1) = stripOnesFuel f ((2 ^ (b + 1) - 1) / 2) := by
      simp [stripOnesFuel, hodd]
    rw [hstep, hdiv]
    exact ih f (by omega)

theorem stripOnesFuel_zero_inv : ∀ fuel m, stripOnesFuel fuel m = some 0 → ∃ b, m = 2 ^ b - 1 := by
  intro fuel
  induction fuel with
  | zero =>
    intro m h
    by_cases hm : m % 2 ≠ 1
    · simp [stripOnesFuel, hm] at h
      exact ⟨0, by omega⟩
    · simp [stripOnesFuel, hm] at h
  | succ f ih =>
    intro m h
    by_cases hm : m % 2 ≠ 1
    · simp [stripOnesFuel, hm] at h
      exact ⟨0, by omega⟩
    · have h3 : m % 2 = 1 := by omega
      have hstep : stripOnesFuel (f + 1) m = stripOnesFuel f (m / 2) := by
        simp [stripOnesFuel, h3]
      rw [hstep] at h
      obtain ⟨b, hb⟩ := ih (m / 2) h
      have h1 : 1 ≤ 2 ^ b := Nat.one_le_two_pow
      have he : 2 ^ (b + 1) = 2 * 2 ^ b := by rw [pow_succ]; ring
      exact ⟨b + 1, by omega⟩

theorem stripOnes_total (m : Nat) : ∃ r, stripOnes m = some r := stripOnesFuel_total m m le_rfl

theorem stripOnes_allones (b : Nat) : stripOnes (2 ^ b - 1) = some 0 := by
  have h1 : b < 2 ^ b := Nat.lt_two_pow b
  exact stripOnesFuel_allones b (2 ^ b - 1) (by omega)

/-- The mask error message of the source. -/
def maskErr (mask : Nat) : String := "Mask " ++ pyHex mask ++ " has holes"

theorem checkMask_run (m m1 m2 : Nat) (h1 : stripZeros m = some m1) (h2 : stripOnes m1 = some m2) :
    checkMask m = ExceptT.mk (some (if m2 ≠ 0 then Except.error (maskErr m) else Except.ok ())) := by
  simp only [checkMask, h1, h2, Option.bind, maskErr]

/-- Soundness of the fuel transcription with respect to checkMask: any
outcome reached with some fuel is the outcome of checkMask. -/
theorem checkMaskFuel_sound (fuel m : Nat) (r : Except String Unit)
    (h : checkMaskFuel fuel m = some r) : checkMask m = ExceptT.mk (some r) := by
  unfold checkMaskFuel at h
  match hz : stripZerosFuel fuel m with
  | none => rw [hz] at h; simp [Option.bind] at h
  | some m1 =>
    rw [hz] at h
    simp only [Option.bind] at h
    match ho : stripOnesFuel fuel m1 with
    | none => rw [ho] at h; simp at h
    | some m2 =>
      rw [ho] at h
      simp only [Option.map] at h
      obtain ⟨hodd, a, ha⟩ := stripZerosFuel_inv fuel m m1 hz
      have hsz : stripZeros m = some m1 := by rw [ha]; exact stripZeros_pow a m1 hodd
      obtain ⟨r2, hso⟩ := stripOnes_total m1
      have hdet : m2 = r2 := stripOnesFuel_det fuel m1 m1 m2 r2 ho hso
      rw [checkMask_run m m1 r2 hsz hso, ← hdet]
      rw [← h]
      rfl

/-- The contiguity property exactly as the specification words it: after
stripping trailing zeros the binary representation is a nonempty run of
ones, i.e. the mask is 2^a times (2^b - 1) with b positive. -/
def specContiguousMask (m : Nat) : Prop := ∃ a b, 0 < b ∧ m = 2 ^ a * (2 ^ b - 1)

/-- Bounded reformulation of specContiguousMask (the exponents of a
positive contiguous mask never exceed the mask), giving decidability at
concrete masks. -/
theorem specContiguousMask_bounded (m : Nat) (hm : 0 < m) :
    specContiguousMask m ↔ ∃ a ≤ m, ∃ b ≤ m, 0 < b ∧ m = 2 ^ a * (2 ^ b - 1) := by
  constructor
  · rintro ⟨a, b, hb, he⟩
    have ha1 : a < 2 ^ a := Nat.lt_two_pow a
    have hb1 : b < 2 ^ b := Nat.lt_two_pow b
    have hpos : 1 ≤ 2 ^ b - 1 := by
      have : 2 ≤ 2 ^ b := by
        calc 2 = 2 ^ 1 := by norm_num
        _ ≤ 2 ^ b := Nat.pow_le_pow_right (by norm_num) hb
      omega
    have h2 : 2 ^ a ≤ m := by rw [he]; exact Nat.le_mul_of_pos_right _ (by omega)
    have h3 : 2 ^ b - 1 ≤ m := by
      rw [he]
      have : 1 ≤ 2 ^ a := Nat.one_le_two_pow
      calc 2 ^ b - 1 = 1 * (2 ^ b - 1) := by ring
      _ ≤ 2 ^ a * (2 ^ b - 1) := Nat.mul_le_mul_right _ this
    exact ⟨a, by omega, b, by omega, hb, he⟩
  · rintro ⟨a, _, b, _, hb, he⟩
    exact ⟨a, b, hb, he⟩

/-- Main characterization of checkMask on positive masks. -/
theorem checkMask_pos_characterization (m : Nat) (hm : 0 < m) :
    (checkMask m = pure () ↔ specContiguousMask m) ∧
    (¬ specContiguousMask m → checkMask m = liftE (Except.error (maskErr m))) := by
  obtain ⟨a, r, hodd, he, hsz⟩ := stripZeros_of_pos m hm
  obtain ⟨r2, hso⟩ := stripOnes_total r
  have hrun := checkMask_run m r r2 hsz hso
  constructor
  · constructor
    · intro h
      rw [hrun] at h
      have hif : (if r2 ≠ 0 then Except.error (maskErr m) else Except.ok ()) = Except.ok () := by
        have h2 : some (if r2 ≠ 0 then Except.error (maskErr m) else Except.ok ())
            = some (Except.ok ()) := h
        exact (Option.some.injEq _ _).mp h2
      by_cases hz : r2 = 0
      · subst hz
        obtain ⟨b, hb⟩ := stripOnesFuel_zero_inv r r hso
        have hbpos : 0 < b := by
          rcases Nat.eq_zero_or_pos b with h0 | h1
          · subst h0
            simp at hb
            omega
          · exact h1
        exact ⟨a, b, hbpos, by rw [he, hb]⟩
      · simp [hz] at hif
    · rintro ⟨a2, b2, hb2, he2⟩
      have h2b : 2 ≤ 2 ^ b2 := by
        calc 2 = 2 ^ 1 := by norm_num
        _ ≤ 2 ^ b2 := Nat.pow_le_pow_right (by norm_num) hb2
      have hodd2 : (2 ^ b2 - 1) % 2 = 1 := by
        have he3 : 2 ^ b2 % 2 = 0 := by
          obtain ⟨k, hk⟩ : ∃ k, b2 = k + 1 := ⟨b2 - 1, by omega⟩
          rw [hk, pow_succ]
          omega
        omega
      have hsz2 : stripZeros m = some (2 ^ b2 - 1) := by
        rw [he2]
        exact stripZeros_pow a2 (2 ^ b2 - 1) hodd2
      have hso2 := stripOnes_allones b2
      rw [checkMask_run m (2 ^ b2 - 1) 0 hsz2 hso2]
      rfl
  · intro hns
    have hr2 : r2 ≠ 0 := by
      intro h0
      subst h0
      obtain ⟨b, hb⟩ := stripOnesFuel_zero_inv r r hso
      have hbpos : 0 < b := by
        rcases Nat.eq_zero_or_pos b with h0 | h1
        · subst h0
          simp at hb
          omega
        · exact h1
      exact hns ⟨a, b, hbpos, by rw [he, hb]⟩
    rw [hrun]
    simp [hr2, liftE]

/- ---------------------------------------------------------------------
Supporting lemmas for the initializer and address theorems.
--------------------------------------------------------------------- -/

theorem exceptBind_ok {α β : Type} (x : Except String α) (f : α → Except String β) (b : β) :
    (x >>= f) = Except.ok b ↔ ∃ a, x = Except.ok a ∧ f a = Except.ok b := by
  cases x <;> simp [Bind.bind, Except.bind]

theorem strAppend_assoc (a b c : String) : a ++ b ++ c = a ++ (b ++ c) := by
  apply String.ext
  simp [String.data_append, List.append_assoc]

theorem M.pure_bind {α β : Type} (a : α) (f : α → M β) : ((pure a : M α) >>= f) = f a := rfl

theorem getAddress_mod (b l : Nat) :
    getAddress b l = (((b + l) <<< 2) + 0x64000000) % 4294967296 := by
  simp only [getAddress, u32, Nat.shiftLeft_eq]
  conv_rhs => rw [Nat.add_mod ((b + l) * 2 ^ 2) 0x64000000, Nat.mul_mod (b + l) (2 ^ 2)]

theorem getAddress_exact (b l : Nat) (h : ((b + l) <<< 2) + 0x64000000 < 4294967296) :
    getAddress b l = ((b + l) <<< 2) + 0x64000000 := by
  rw [getAddress_mod]
  exact Nat.mod_eq_of_lt h

/-- Unfolding of nodeAddrInitializer on a leaf whose address and mask
attributes parse. -/
theorem nodeAddrInitializer_leaf_eq (node : Node) (aOpt : Option Nat) (mv : Nat)
    (hleaf : node.children = [])
    (ha : parseInt (node.get "address") = Except.ok aOpt)
    (hm : parseIntSome (node.getD "mask" "0xffffffff") = Except.ok mv) :
    nodeAddrInitializer node =
      (checkMask mv >>= fun _ =>
        (let perm := (node.get "permission").getD ""
         let read := strHasChar perm 'r'
         let write := strHasChar perm 'w'
         if mv != 0xffffffff && write && !read then do
           let n ← liftE (nodeName node)
           liftE (Except.error ("Register " ++ n ++ " cannot be mask-written because it cannot be read"))
         else if read then
           pure ("getAddress(base, " ++ pyHex (aOpt.getD 0) ++ "), " ++ pyHex mv)
         else
           pure ("getAddress(base, " ++ pyHex (aOpt.getD 0) ++ ")"))) := by
  unfold nodeAddrInitializer
  rw [ha]
  simp only [M.liftE_ok_bind, hleaf, hm]

/-- Unfolding of nodeAddrInitializer on a leaf whose mask attribute fails
to parse. -/
theorem nodeAddrInitializer_leaf_maskerr (node : Node) (aOpt : Option Nat) (e : String)
    (hleaf : node.children = [])
    (ha : parseInt (node.get "address") = Except.ok aOpt)
    (hm : parseIntSome (node.getD "mask" "0xffffffff") = Except.error e) :
    nodeAddrInitializer node = liftE (Except.error e) := by
  unfold nodeAddrInitializer
  rw [ha]
  simp only [M.liftE_ok_bind, hleaf, hm, M.liftE_error_bind]

/-- Every successful nodeName result is a valid identifier. -/
theorem nodeNameFrom_valid (node : Node) (s r : String)
    (h : nodeNameFrom node s = Except.ok r) : pyIsIdent r = true := by
  unfold nodeNameFrom at h
  by_cases hid : pyIsIdent (if pyIsIdent s then s else "reg_" ++ s) = true
  · simp only [hid, if_true] at h
    have h2 : Except.ok (if pyIsIdent s = true then s else "reg_" ++ s)
        = (Except.ok r : Except String String) := h
    rw [← Except.ok.inj h2]
    exact hid
  · simp only [Bool.not_eq_true] at hid
    simp only [hid] at h
    simp at h

unseal removeIdx md5Chunks nodeStruct childStructs

/- ---------------------------------------------------------------------
Claim theorems C1, C4, C5, C6, C7, C8, C10.
--------------------------------------------------------------------- -/

/-- C1: the address-based constructor of a replicated node emits exactly
generate_size instances, but all of them carry the same initializer: the
source parses generate_address_step and never uses it, so the addresses do
not step by generate_address_step as the claim states. At the failing
input (generate_size 2, generate_address_step 0x100, address 0x10) both
array elements are initialized at relative address 0x10, while the claim
demands 0x10 and 0x110, which resolve to different absolute addresses. -/
theorem claim_c1_replication_step : nodeAddrConstructor exC1 0 =
      pure ("r(\x7b\nread_only_type(getAddress(base, 0x10), 0xffffffff),\nread_only_type(getAddress(base, 0x10), 0xffffffff),\n\x7d)\n") ∧
    parseInt (exC1.get "generate_size") = Except.ok (some 2) ∧
    parseInt (exC1.get "generate_address_step") = Except.ok (some 0x100) ∧
    getAddress 0 (0x10 + 1 * 0x100) ≠ getAddress 0 0x10 := by
  refine ⟨rfl, rfl, rfl, by decide⟩

/-- C4: checkMask on the full mask 0xffffffff terminates and succeeds, but
on the zero mask the first while loop never exits: the fuel transcription
returns none at every fuel, and the loop-limit embedding marks the
divergence. -/
theorem claim_c4_zero_and_full_mask :
    (∀ fuel, checkMaskFuel fuel 0 = none) ∧
    checkMask 0 = diverge ∧
    checkMaskFuel 40 0xffffffff = some (Except.ok ()) ∧
    checkMask 0xffffffff = pure () := by
  refine ⟨checkMaskFuel_zero, rfl, rfl, rfl⟩

/-- C5 counterexample: the zero mask is not of the contiguous form 0*1+,
so the claim says checkMask(0) fails with NonContiguousMask; instead
checkMask(0) never terminates (none at every fuel), so it neither
succeeds nor raises. -/
theorem claim_c5_counterexample :
    checkMask 0 = diverge ∧
    (∀ fuel, checkMaskFuel fuel 0 = none) ∧
    ¬ specContiguousMask 0 := by
  refine ⟨rfl, checkMaskFuel_zero, ?_⟩
  rintro ⟨a, b, hb, he⟩
  have h1 : 0 < 2 ^ a := pow_pos (by norm_num) a
  have h2 : 2 ≤ 2 ^ b := by
    calc 2 = 2 ^ 1 := by norm_num
    _ ≤ 2 ^ b := Nat.pow_le_pow_right (by norm_num) hb
  have h3 : 0 < 2 ^ a * (2 ^ b - 1) := Nat.mul_pos h1 (by omega)
  omega

/-- C5 (amended): for every positive mask, checkMask succeeds exactly when
the mask is, after stripping trailing zeros, a single run of ones
(2^a * (2^b - 1) with b positive), and otherwise raises the
NonContiguousMask error naming the mask; on the zero mask checkMask does
not terminate (claim_c5_counterexample). -/
theorem claim_c5_contiguity (m : Nat) (hm : 0 < m) :
    (checkMask m = pure () ↔ specContiguousMask m) ∧
    (¬ specContiguousMask m →
      checkMask m = liftE (Except.error ("Mask " ++ pyHex m ++ " has holes"))) :=
  checkMask_pos_characterization m hm

theorem claim_c5_witness :
    checkMask 28 = pure () ∧
    checkMask 22 = liftE (Except.error "Mask 0x16 has holes") := by
  constructor
  · exact (claim_c5_contiguity 28 (by norm_num)).1.mpr ⟨2, 3, by norm_num, by norm_num⟩
  · have hns : ¬ specContiguousMask 22 := by
      intro hs
      have hb := (specContiguousMask_bounded 22 (by norm_num)).mp hs
      revert hb
      decide
    exact (claim_c5_contiguity 22 (by norm_num)).2 hns

/-- C7: identifier derivation. The replicated identifier 3count_${i} with
index variable i resolves to reg_3count; surrounding whitespace is
trimmed; an identifier that stays invalid even after the reg_ prefix
raises the error citing the raw identifier; and every successful
derivation returns a valid identifier. -/
theorem claim_c7_identifier :
    nodeName exC7 = Except.ok "reg_3count" ∧
    nodeName exWsId = Except.ok "foo" ∧
    nodeName exBadId = Except.error "Could not convert node id \"+\" to a valid C++ identifier" ∧
    ∀ node r, nodeName node = Except.ok r → pyIsIdent r = true := by
  refine ⟨rfl, rfl, rfl, ?_⟩
  intro node r h
  unfold nodeName at h
  split at h
  · split at h
    · exact nodeNameFrom_valid _ _ _ h
    · simp at h
  · split at h
    · exact nodeNameFrom_valid _ _ _ h
    · simp at h

theorem claim_c7_witness : pyIsIdent "reg_3count" = true :=
  claim_c7_identifier.2.2.2 exC7 "reg_3count" claim_c7_identifier.1

/-- C6: for a leaf under parent base b, the emitted absolute address is
getAddress(b, a) where a is the leaf relative address (0 when the address
attribute is absent); getAddress is the fixed transform
((b + a) << 2) + 0x64000000 in uint32 arithmetic, which equals the exact
Nat value whenever it does not overflow; and a successful initializer
always passes exactly hex(a) to getAddress. -/
theorem claim_c6_leaf_address (node : Node) (b : Nat) (aOpt : Option Nat)
    (hleaf : node.children = [])
    (ha : parseInt (node.get "address") = Except.ok aOpt) :
    (getAddress b (aOpt.getD 0) =
      (((b + aOpt.getD 0) <<< 2) + 0x64000000) % 4294967296) ∧
    (((b + aOpt.getD 0) <<< 2) + 0x64000000 < 4294967296 →
      getAddress b (aOpt.getD 0) = ((b + aOpt.getD 0) <<< 2) + 0x64000000) ∧
    (node.get "address" = none → aOpt.getD 0 = 0) ∧
    (∀ r, nodeAddrInitializer node = pure r →
      ∃ t, r = ("getAddress(base, " ++ pyHex (aOpt.getD 0)) ++ t) := by
  refine ⟨getAddress_mod b _, getAddress_exact b _, ?_, ?_⟩
  · intro hnone
    rw [hnone] at ha
    have : aOpt = none := by
      have h2 : (Except.ok none : Except String (Option Nat)) = Except.ok aOpt := ha
      exact (Except.ok.inj h2).symm
    rw [this]
    rfl
  · intro r h
    match hm : parseIntSome (node.getD "mask" "0xffffffff") with
    | Except.error e =>
      rw [nodeAddrInitializer_leaf_maskerr node aOpt e hleaf ha hm] at h
      exact absurd h.symm (M.pure_ne_error r e)
    | Except.ok mv =>
      rw [nodeAddrInitializer_leaf_eq node aOpt mv hleaf ha hm] at h
      obtain ⟨u, _, h3⟩ := (M.bind_eq_pure _ _ _).mp h
      simp only at h3
      by_cases hc : (mv != 0xffffffff &&
          strHasChar ((node.get "permission").getD "") 'w' &&
          !strHasChar ((node.get "permission").getD "") 'r') = true
      · rw [if_pos hc] at h3
        obtain ⟨nm, _, h4⟩ := (M.bind_eq_pure _ _ _).mp h3
        exact absurd h4.symm (M.pure_ne_error _ _)
      · rw [if_neg hc] at h3
        by_cases hr : strHasChar ((node.get "permission").getD "") 'r' = true
        · rw [if_pos hr] at h3
          refine ⟨"), " ++ pyHex mv, ?_⟩
          have := (M.pure_inj _ _ h3).symm
          rw [this]
          rw [show ("getAddress(base, " ++ pyHex (aOpt.getD 0) ++ "), " ++ pyHex mv)
              = "getAddress(base, " ++ pyHex (aOpt.getD 0) ++ ("), " ++ pyHex mv) from
            strAppend_assoc _ _ _]
        · rw [if_neg hr] at h3
          refine ⟨")", ?_⟩
          exact (M.pure_inj _ _ h3).symm

theorem claim_c6_witness :
    getAddress 0 0x10 = ((0 + 0x10) <<< 2) + 0x64000000 ∧
    ∃ t, "getAddress(base, 0x10), 0xffffffff" = ("getAddress(base, " ++ pyHex 0x10) ++ t := by
  have h := claim_c6_leaf_address exC6 0 (some 0x10) rfl rfl
  refine ⟨h.2.1 (by decide), h.2.2.2 "getAddress(base, 0x10), 0xffffffff" rfl⟩

/-- C8 counterexample: a leaf that is writable and not readable with the
non-default, non-contiguous mask 0b101 aborts with the NonContiguousMask
error, not with InvalidMaskedWrite as claimed (checkMask runs before the
masked-write permission check). -/
theorem claim_c8_counterexample :
    nodeAddrInitializer exC8bad = liftE (Except.error "Mask 0x5 has holes") ∧
    parseIntSome (exC8bad.getD "mask" "0xffffffff") = Except.ok 5 ∧
    (5 : Nat) ≠ 0xffffffff ∧
    strHasChar "w" 'w' = true ∧
    strHasChar "w" 'r' = false ∧
    "Mask 0x5 has holes" ≠ "Register r cannot be mask-written because it cannot be read" := by
  refine ⟨rfl, rfl, by norm_num, rfl, rfl, by decide⟩

/-- C8 (amended): for every leaf whose attributes parse and whose mask
passes checkMask and differs from 0xffffffff: if it is writable and not
readable the initializer aborts with InvalidMaskedWrite naming the
register, and if it is readable (e.g. permission "rw") the initializer
succeeds with the masked read-write form. -/
theorem claim_c8_masked_write (node : Node) (aOpt : Option Nat) (mv : Nat) (p nm : String)
    (hleaf : node.children = [])
    (ha : parseInt (node.get "address") = Except.ok aOpt)
    (hm : parseIntSome (node.getD "mask" "0xffffffff") = Except.ok mv)
    (hck : checkMask mv = pure ())
    (hfull : mv ≠ 0xffffffff)
    (hperm : node.get "permission" = some p)
    (hname : nodeName node = Except.ok nm) :
    (strHasChar p 'w' = true → strHasChar p 'r' = false →
      nodeAddrInitializer node =
        liftE (Except.error ("Register " ++ nm ++ " cannot be mask-written because it cannot be read"))) ∧
    (strHasChar p 'r' = true →
      nodeAddrInitializer node =
        pure ("getAddress(base, " ++ pyHex (aOpt.getD 0) ++ "), " ++ pyHex mv)) := by
  have hrw := nodeAddrInitializer_leaf_eq node aOpt mv hleaf ha hm
  rw [hck, M.pure_bind, hperm] at hrw
  simp only [Option.getD_some] at hrw
  constructor
  · intro hw hr
    have hcond : (mv != 0xffffffff && strHasChar p 'w' && !strHasChar p 'r') = true := by
      simp [hw, hr, bne_iff_ne, hfull]
    rw [hrw, if_pos hcond]
    rw [show (do
        let n ← liftE (nodeName node)
        liftE (Except.error ("Register " ++ n ++ " cannot be mask-written because it cannot be read")) : M String)
      = (liftE (nodeName node) >>= fun n =>
        liftE (Except.error ("Register " ++ n ++ " cannot be mask-written because it cannot be read"))) from rfl]
    rw [hname, M.liftE_ok_bind]
  · intro hr
    have hcond : (mv != 0xffffffff && strHasChar p 'w' && !strHasChar p 'r') = false := by
      simp [hr]
    rw [hrw, if_neg (by simp [hcond]), if_pos hr]

theorem claim_c8_witness :
    nodeAddrInitializer exC8w =
      liftE (Except.error "Register r cannot be mask-written because it cannot be read") ∧
    nodeAddrInitializer exC8rw = pure ("getAddress(base, 0x10), 0xff") := by
  constructor
  · exact (claim_c8_masked_write exC8w (some 0x10) 0xff "w" "r"
      rfl rfl rfl rfl (by norm_num) rfl rfl).1 rfl rfl
  · exact (claim_c8_masked_write exC8rw (some 0x10) 0xff "rw" "r"
      rfl rfl rfl rfl (by norm_num) rfl rfl).2 rfl

/-- C10: for every leaf whose address and mask attributes parse, a mask
rejected by checkMask aborts the initializer with that NonContiguousMask
error regardless of the permission (the mask check runs before the
masked-write check); an absent mask attribute defaults to 0xffffffff; a
successful write-only initializer never includes the mask; and the
concrete write-only leaf with mask 0b1011 fails with NonContiguousMask,
not InvalidMaskedWrite. -/
theorem claim_c10_mask_checked_first (node : Node) (aOpt : Option Nat) (mv : Nat)
    (hleaf : node.children = [])
    (ha : parseInt (node.get "address") = Except.ok aOpt)
    (hm : parseIntSome (node.getD "mask" "0xffffffff") = Except.ok mv) :
    (∀ e, checkMask mv = liftE (Except.error e) →
      nodeAddrInitializer node = liftE (Except.error e)) ∧
    (node.get "mask" = none →
      parseIntSome (node.getD "mask" "0xffffffff") = Except.ok 0xffffffff) ∧
    (∀ rr, strHasChar ((node.get "permission").getD "") 'r' = false →
      nodeAddrInitializer node = pure rr →
      rr = "getAddress(base, " ++ pyHex (aOpt.getD 0) ++ ")") ∧
    (nodeAddrInitializer exC10 = liftE (Except.error "Mask 0xb has holes") ∧
      "Mask 0xb has holes" ≠ "Register wreg cannot be mask-written because it cannot be read") := by
  have hrw := nodeAddrInitializer_leaf_eq node aOpt mv hleaf ha hm
  refine ⟨?_, ?_, ?_, rfl, by decide⟩
  · intro e hck
    rw [hrw, hck, M.liftE_error_bind]
  · intro hnone
    rw [Node.getD, hnone]
    rfl
  · intro rr hr h
    rw [hrw] at h
    obtain ⟨u, _, h3⟩ := (M.bind_eq_pure _ _ _).mp h
    simp only at h3
    by_cases hc : (mv != 0xffffffff &&
        strHasChar ((node.get "permission").getD "") 'w' &&
        !strHasChar ((node.get "permission").getD "") 'r') = true
    · rw [if_pos hc] at h3
      obtain ⟨nm, _, h4⟩ := (M.bind_eq_pure _ _ _).mp h3
      exact absurd h4.symm (M.pure_ne_error _ _)
    · rw [if_neg hc, if_neg (by simp [hr])] at h3
      exact (M.pure_inj _ _ h3).symm

theorem claim_c10_witness :
    nodeAddrInitializer exC10 = liftE (Except.error "Mask 0xb has holes") := by
  exact ((claim_c10_mask_checked_first exC10 (some 0x4) 11 rfl rfl rfl).1
    "Mask 0xb has holes" rfl)

/- ---------------------------------------------------------------------
Equation lemmas and invariants of nodeStruct / childStructs.
--------------------------------------------------------------------- -/

theorem childStructs_nil (b : Nat) (acc : String) (s : List String) :
    childStructs b [] acc s = pure (acc, s) := rfl

theorem M.bind_assoc {α β γ : Type} (x : M α) (f : α → M β) (g : β → M γ) :
    (x >>= f) >>= g = x >>= fun a => f a >>= g := by
  match hx : x.run with
  | none =>
    have hx2 : x = (diverge : M α) := hx
    rw [hx2, M.diverge_bind, M.diverge_bind, M.diverge_bind]
  | some (Except.error e) =>
    have hx2 : x = liftE (Except.error e) := hx
    rw [hx2, M.liftE_error_bind, M.liftE_error_bind, M.liftE_error_bind]
  | some (Except.ok a) =>
    have hx2 : x = liftE (Except.ok a) := hx
    rw [hx2, M.liftE_ok_bind, M.liftE_ok_bind]

theorem childStructs_cons_leaf (b : Nat) (c : Node) (rest : List Node)
    (acc : String) (s : List String) (h : c.children = []) :
    childStructs b (c :: rest) acc s = childStructs b rest acc s := by
  obtain ⟨tg, ats, ch⟩ := c
  have hch : ch = [] := h
  subst hch
  rw [childStructs.eq_def]
  rfl

theorem childStructs_cons_comp (b : Nat) (c : Node) (rest : List Node)
    (acc : String) (s : List String) (h : c.children ≠ []) :
    childStructs b (c :: rest) acc s =
      (nodeStruct c b s >>= fun p => childStructs b rest (acc ++ p.1 ++ ";\n") p.2) := by
  obtain ⟨tg, ats, ch⟩ := c
  match ch, h with
  | x :: xs, _ =>
    rw [childStructs.eq_def]
    rfl

theorem nodeStruct_leaf (node : Node) (b : Nat) (s : List String) (h : node.children = []) :
    nodeStruct node b s = liftE (Except.error "Cannot create node struct for a value node") := by
  obtain ⟨tg, ats, ch⟩ := node
  have hch : ch = [] := h
  subst hch
  rw [nodeStruct.eq_def]
  rfl

theorem nodeStruct_unfold (tg : String) (ats : List (String × String)) (c : Node)
    (rest : List Node) (b : Nat) (s : List String) :
    nodeStruct (Node.mk tg ats (c :: rest)) b s =
      (liftE (nodeStructName (Node.mk tg ats (c :: rest))) >>= fun structName =>
        if s.contains structName = true then pure ("", s)
        else
          (childStructs b (c :: rest) "" (s ++ [structName]) >>= fun p =>
            (declFold b (c :: rest) (p.1 ++ structHeaderText structName) >>= fun st2 =>
              (ctorItems (fun d => nodeAddrConstructor d b) (c :: rest) >>= fun ai =>
                (ctorItems (fun d => liftE (nodeGenConstructor d)) (c :: rest) >>= fun gi =>
                  pure (st2 ++ addrCtorHead structName b ++ ai ++ ctorBodyText ++
                    genCtorHead structName ++ gi ++ ctorBodyText ++ "\x7d", p.2)))))) := by
  rw [nodeStruct.eq_def]
  rfl

theorem declFold_cons (b : Nat) (c : Node) (rest : List Node) (acc : String) :
    declFold b (c :: rest) acc =
      (liftE (nodeDecl c b) >>= fun d => declFold b rest (acc ++ d ++ "\n")) := by
  show ((liftE (nodeDecl c b) >>= fun d => pure (acc ++ d ++ "\n")) >>= fun a2 => declFold b rest a2) = _
  rw [M.bind_assoc]
  simp only [M.pure_bind]

theorem declFold_extends (b : Nat) (l : List Node) :
    ∀ acc st2, declFold b l acc = pure st2 → ∃ d, st2 = acc ++ d := by
  induction l with
  | nil =>
    intro acc st2 h
    refine ⟨"", ?_⟩
    have h2 := M.pure_inj _ _ h
    rw [← h2]
    simp [String.append_empty]
  | cons c rest ih =>
    intro acc st2 h
    rw [declFold_cons] at h
    cases hd : nodeDecl c b with
    | error e =>
      rw [hd, M.liftE_error_bind] at h
      exact absurd h.symm (M.pure_ne_error _ _)
    | ok d =>
      rw [hd, M.liftE_ok_bind] at h
      obtain ⟨t, ht⟩ := ih (acc ++ d ++ "\n") st2 h
      refine ⟨d ++ "\n" ++ t, ?_⟩
      rw [ht, strAppend_assoc acc d "\n", strAppend_assoc acc (d ++ "\n") t]

mutual
theorem nodeStruct_extends : ∀ (node : Node) (b : Nat) (s : List String) (out : String)
    (s2 : List String), nodeStruct node b s = pure (out, s2) → ∃ t, s2 = s ++ t
  | .mk tg ats [], b, s, out, s2 => by
    intro h
    rw [nodeStruct_leaf (Node.mk tg ats []) b s rfl] at h
    exact absurd h.symm (M.pure_ne_error _ _)
  | .mk tg ats (c :: rest), b, s, out, s2 => by
    intro h
    rw [nodeStruct_unfold] at h
    cases hsn : nodeStructName (Node.mk tg ats (c :: rest)) with
    | error e =>
      rw [hsn, M.liftE_error_bind] at h
      exact absurd h.symm (M.pure_ne_error _ _)
    | ok sn =>
      rw [hsn, M.liftE_ok_bind] at h
      by_cases hmem : s.contains sn = true
      · rw [if_pos hmem] at h
        have h2 := M.pure_inj _ _ h
        rw [Prod.mk.injEq] at h2
        exact ⟨[], by rw [← h2.2]; simp⟩
      · rw [if_neg hmem] at h
        obtain ⟨p, hcs, h3⟩ := (M.bind_eq_pure _ _ _).mp h
        obtain ⟨st2, _, h4⟩ := (M.bind_eq_pure _ _ _).mp h3
        obtain ⟨ai, _, h5⟩ := (M.bind_eq_pure _ _ _).mp h4
        obtain ⟨gi, _, h6⟩ := (M.bind_eq_pure _ _ _).mp h5
        have h7 := M.pure_inj _ _ h6
        rw [Prod.mk.injEq] at h7
        obtain ⟨t1, ht1⟩ := childStructs_extends (c :: rest) b "" (s ++ [sn]) p.1 p.2
          (by rw [← hcs])
        refine ⟨[sn] ++ t1, ?_⟩
        rw [← h7.2, ht1, List.append_assoc]
termination_by node b s out s2 => nodeSize node
decreasing_by
  simp only [nodeSize, nodesSize]
  omega

theorem childStructs_extends : ∀ (children : List Node) (b : Nat) (acc : String)
    (s : List String) (out : String) (s2 : List String),
    childStructs b children acc s = pure (out, s2) → ∃ t, s2 = s ++ t
  | [], b, acc, s, out, s2 => by
    intro h
    rw [childStructs_nil] at h
    have h2 := M.pure_inj _ _ h
    rw [Prod.mk.injEq] at h2
    exact ⟨[], by rw [← h2.2]; simp⟩
  | c :: rest, b, acc, s, out, s2 => by
    intro h
    by_cases hc : c.children = []
    · rw [childStructs_cons_leaf b c rest acc s hc] at h
      exact childStructs_extends rest b acc s out s2 h
    · rw [childStructs_cons_comp b c rest acc s hc] at h
      obtain ⟨p, hns, h2⟩ := (M.bind_eq_pure _ _ _).mp h
      obtain ⟨t1, ht1⟩ := nodeStruct_extends c b s p.1 p.2 (by rw [← hns])
      obtain ⟨t2, ht2⟩ := childStructs_extends rest b (acc ++ p.1 ++ ";\n") p.2 out s2 h2
      refine ⟨t1 ++ t2, ?_⟩
      rw [ht2, ht1, List.append_assoc]
termination_by children b acc s out s2 => nodesSize children
decreasing_by
  all_goals simp only [nodeSize, nodesSize]
  all_goals omega
end

theorem strListContains_mem (l : List String) (a : String) (h : l.contains a = true) : a ∈ l :=
  List.mem_of_elem_eq_true h

/-- The full shape of a freshly emitted struct: the recursively emitted
child structs come first, then the header naming the struct, then the
member declarations and both constructors; the set result is the child
recursion's set. -/
theorem nodeStruct_emit_shape (node : Node) (b : Nat) (s : List String) (sn out : String)
    (s2 : List String) (hne : node.children ≠ [])
    (hsn : nodeStructName node = Except.ok sn)
    (hmem : s.contains sn = false)
    (h : nodeStruct node b s = pure (out, s2)) :
    ∃ p d ai gi, childStructs b node.children "" (s ++ [sn]) = pure p ∧
      out = p.1 ++ (structHeaderText sn ++ (d ++ (addrCtorHead sn b ++
        (ai ++ (ctorBodyText ++ (genCtorHead sn ++ (gi ++ (ctorBodyText ++ "\x7d")))))))) ∧
      s2 = p.2 := by
  obtain ⟨tg, ats, ch⟩ := node
  match ch, hne, hsn, h with
  | [], hne, _, _ => exact absurd rfl hne
  | c :: rest, hne, hsn, h =>
    have hnot : ¬ (s.contains sn = true) := by
      rw [hmem]
      exact Bool.false_ne_true
    rw [nodeStruct_unfold, hsn, M.liftE_ok_bind, if_neg hnot] at h
    obtain ⟨p, hcs, h3⟩ := (M.bind_eq_pure _ _ _).mp h
    obtain ⟨st2, hdf, h4⟩ := (M.bind_eq_pure _ _ _).mp h3
    obtain ⟨ai, hai, h5⟩ := (M.bind_eq_pure _ _ _).mp h4
    obtain ⟨gi, hgi, h6⟩ := (M.bind_eq_pure _ _ _).mp h5
    have h7 := M.pure_inj _ _ h6
    rw [Prod.mk.injEq] at h7
    obtain ⟨d, hd⟩ := declFold_extends b (c :: rest) (p.1 ++ structHeaderText sn) st2 hdf
    refine ⟨p, d, ai, gi, hcs, ?_, h7.2.symm⟩
    rw [← h7.1, hd]
    simp only [strAppend_assoc]

/-- C9: the deduplication state of nodeStruct. (1) The ALREADY_DECLARED
set is append-only: every successful run extends the incoming set at the
end. (2) A composite whose struct name is already in the set emits
nothing and leaves the set unchanged (at-most-once emission). (3) After a
successful run the composite's name is in the set. (4) On a fresh
emission, the recursively emitted child-composite declarations precede
the struct header that declares the composite itself in the output
text. -/
theorem claim_c9_dedup_invariants :
    (∀ node b s out s2, nodeStruct node b s = pure (out, s2) → ∃ t, s2 = s ++ t) ∧
    (∀ node b s sn, node.children ≠ [] → nodeStructName node = Except.ok sn →
      s.contains sn = true → nodeStruct node b s = pure ("", s)) ∧
    (∀ node b s sn out s2, node.children ≠ [] → nodeStructName node = Except.ok sn →
      nodeStruct node b s = pure (out, s2) → sn ∈ s2) ∧
    (∀ node b s sn out s2, node.children ≠ [] → nodeStructName node = Except.ok sn →
      s.contains sn = false → nodeStruct node b s = pure (out, s2) →
      ∃ childPart p2 restPart, out = childPart ++ (structHeaderText sn ++ restPart) ∧
        childStructs b node.children "" (s ++ [sn]) = pure (childPart, p2)) := by
  refine ⟨fun node b s out s2 h => nodeStruct_extends node b s out s2 h, ?_, ?_, ?_⟩
  · intro node b s sn hne hsn hmem
    obtain ⟨tg, ats, ch⟩ := node
    match ch, hne, hsn with
    | [], hne, _ => exact absurd rfl hne
    | c :: rest, hne, hsn =>
      rw [nodeStruct_unfold, hsn, M.liftE_ok_bind, if_pos hmem]
  · intro node b s sn out s2 hne hsn h
    obtain ⟨tg, ats, ch⟩ := node
    match ch, hne, hsn, h with
    | [], hne, _, _ => exact absurd rfl hne
    | c :: rest, hne, hsn, h =>
      rw [nodeStruct_unfold, hsn, M.liftE_ok_bind] at h
      by_cases hmem : s.contains sn = true
      · rw [if_pos hmem] at h
        have h2 := M.pure_inj _ _ h
        rw [Prod.mk.injEq] at h2
        rw [← h2.2]
        exact strListContains_mem s sn hmem
      · rw [if_neg hmem] at h
        obtain ⟨p, hcs, h3⟩ := (M.bind_eq_pure _ _ _).mp h
        obtain ⟨st2, _, h4⟩ := (M.bind_eq_pure _ _ _).mp h3
        obtain ⟨ai, _, h5⟩ := (M.bind_eq_pure _ _ _).mp h4
        obtain ⟨gi, _, h6⟩ := (M.bind_eq_pure _ _ _).mp h5
        have h7 := M.pure_inj _ _ h6
        rw [Prod.mk.injEq] at h7
        obtain ⟨t1, ht1⟩ := childStructs_extends (c :: rest) b "" (s ++ [sn]) p.1 p.2
          (by rw [← hcs])
        rw [← h7.2, ht1, List.append_assoc]
        simp
  · intro node b s sn out s2 hne hsn hmem h
    obtain ⟨p, d, ai, gi, hcs, hout, _⟩ :=
      nodeStruct_emit_shape node b s sn out s2 hne hsn hmem h
    exact ⟨p.1, p.2, d ++ (addrCtorHead sn b ++ (ai ++ (ctorBodyText ++
      (genCtorHead sn ++ (gi ++ (ctorBodyText ++ "\x7d")))))), hout, by rw [hcs]⟩

theorem claim_c9_witness : nodeStruct exA 0 ["blk_7d2a"] = pure ("", ["blk_7d2a"]) :=
  claim_c9_dedup_invariants.2.1 exA 0 ["blk_7d2a"] "blk_7d2a"
    (List.cons_ne_nil _ _) rfl rfl

/-- C2 counterexample: exA and exB have literally identical children (so
identical emitted child declarations), but their raw markup differs by a
description attribute that appears nowhere in the emitted declarations;
their struct names differ (the hash is over the markup), and compiling a
root that contains both emits two composite declarations with two
distinct type names instead of the claimed single one. -/
theorem claim_c2_counterexample :
    exA.children = exB.children ∧
    nodeStructName exA = Except.ok "blk_7d2a" ∧
    nodeStructName exB = Except.ok "blk_1b8b" ∧
    "blk_7d2a" ≠ "blk_1b8b" ∧
    declaredOf (nodeStruct exRoot2 0 []) = ["top_5aea", "blk_7d2a", "blk_1b8b"] := by
  refine ⟨rfl, rfl, rfl, by decide, rfl⟩

/-- C2 (amended): the 4-hex-digit hash is computed over the raw serialized
markup of the node, not over the rendering of its children declarations:
two composite nodes with identical markup and identical derived name get
the same struct name, and a root containing the same composite twice
emits its declaration exactly once (second reference skipped by the
deduplication set); composites with identical children but different
markup get different names and are each emitted
(claim_c2_counterexample). -/
theorem claim_c2_markup_hash :
    (∀ n1 n2 : Node, tostring n1 = tostring n2 → nodeName n1 = nodeName n2 →
      nodeStructName n1 = nodeStructName n2) ∧
    declaredOf (nodeStruct exRootTwin 0 []) = ["top2_9b96", "blk_7d2a"] := by
  constructor
  · intro n1 n2 h1 h2
    unfold nodeStructName
    rw [h1, h2]
  · rfl

theorem claim_c2_witness : nodeStructName exATwin = nodeStructName exA :=
  claim_c2_markup_hash.1 exATwin exA rfl rfl

/-- C3 counterexample: in the tree top3(blk@0x100(r)), the composite blk
has resolved base 0x0 + 0x100 = 0x100, but its emitted address-based
constructor default is 0x0 (the base the emitter was invoked with at the
root); the output contains the constructor header with default 0x0 and
contains no default 0x100 anywhere. -/
theorem claim_c3_counterexample :
    declaredOf (nodeStruct exRootC3 0 []) = ["top3_94ee", "blk_c1e3"] ∧
    strContains (outputOf (nodeStruct exRootC3 0 [])) (addrCtorHead "blk_c1e3" 0) = true ∧
    strContains (outputOf (nodeStruct exRootC3 0 [])) "(std::uint32_t base = 0x100)" = false ∧
    parseInt (exBlk.get "address") = Except.ok (some 0x100) ∧
    (0x100 : Nat) ≠ 0x0 := by
  refine ⟨rfl, rfl, rfl, rfl, by norm_num⟩

/-- C3 (amended): the default value of the emitted address-based
constructor is the hex of the base address the emitter was invoked with
for that struct, not the composite's accumulated base: every fresh
emission contains the constructor head with default hex(b); child
composites are emitted with the parent's own base b unchanged; and the
driver invokes the root emission at base 0x0, so every composite's
default is 0x0. -/
theorem claim_c3_default_base :
    (∀ node b s sn out s2, node.children ≠ [] → nodeStructName node = Except.ok sn →
      s.contains sn = false → nodeStruct node b s = pure (out, s2) →
      strContains out (addrCtorHead sn b) = true) ∧
    (∀ b (c : Node) rest acc s, c.children ≠ [] →
      childStructs b (c :: rest) acc s =
        (nodeStruct c b s >>= fun p => childStructs b rest (acc ++ p.1 ++ ";\n") p.2)) ∧
    (∀ root, compileRoot root =
      (nodeStruct root 0x0 [] >>= fun p =>
        (liftE (nodeType root) >>= fun t =>
          (liftE (nodeName root) >>= fun n =>
            pure (p.1 ++ ";\n" ++ "const constexpr " ++ t ++ " " ++ n ++ "(0x0);\n"))))) := by
  refine ⟨?_, ?_, fun root => rfl⟩
  · intro node b s sn out s2 hne hsn hmem h
    obtain ⟨p, d, ai, gi, _, hout, _⟩ :=
      nodeStruct_emit_shape node b s sn out s2 hne hsn hmem h
    rw [hout]
    rw [show p.1 ++ (structHeaderText sn ++ (d ++ (addrCtorHead sn b ++
        (ai ++ (ctorBodyText ++ (genCtorHead sn ++ (gi ++ (ctorBodyText ++ "\x7d"))))))))
      = (p.1 ++ (structHeaderText sn ++ d)) ++ (addrCtorHead sn b ++
        (ai ++ (ctorBodyText ++ (genCtorHead sn ++ (gi ++ (ctorBodyText ++ "\x7d")))))) from by
      rw [strAppend_assoc, strAppend_assoc]]
    exact strContains_middle _ _ _
  · intro b c rest acc s hc
    exact childStructs_cons_comp b c rest acc s hc

theorem claim_c3_witness :
    childStructs 0 [exBlk] "" [] =
      (nodeStruct exBlk 0 [] >>= fun p => childStructs 0 [] ("" ++ p.1 ++ ";\n") p.2) :=
  claim_c3_default_base.2.1 0 exBlk [] "" [] (List.cons_ne_nil _ _)
